import Mathlib

set_option maxHeartbeats 1000000

/-!
Shallow embedding of the `driver` package of coronis-labs/go-mongo
(`src/driver/driver.go`): a facade over the official MongoDB Go driver.

The external driver (package `mongo`) is modelled as an oracle environment
`DriverEnv` that decides the outcome of each underlying driver call
(connect, ping, find, insert, update, delete, replace).  The facade's
`Client` struct is explicit state; each Go method becomes a Lean function
from the old client to a result together with the new client and a trace
of the driver calls it performed.  Go `error` values are `Option Err`
(`none` is `nil`); a method that would dereference a nil pointer
(`c.cl` or `c.co` unset) yields `Exec.nilDeref` instead of a value.
-/

namespace GoMongo

/-- Go `error` value; `none` stands for `nil`. -/
abbrev Err := String

/-- Opaque handle standing for a non-nil `*mongo.Client`. -/
abbrev MongoClient := Nat

/-- Opaque document value (Go `empty-interface value` passed to inserts/replaces). -/
abbrev Doc := Nat

/-- Opaque filter value (Go `empty-interface value` passed to queries). -/
abbrev Filter := Nat

/-- Opaque update value. -/
abbrev MUpdate := Nat

/-- Opaque `*mongo.SingleResult` handle (the Go driver never returns nil here). -/
abbrev SingleResult := Nat

/-- Opaque `*mongo.Cursor` handle. -/
abbrev Cursor := Nat

/-- Handle standing for a `*mongo.Database`: the Go driver's `Database` struct
records the (non-nil) client it was derived from and the database name;
deriving one from a nil client dereferences the nil pointer instead. -/
structure MongoDatabase where
  cl : MongoClient
  name : String
deriving DecidableEq

/-- Handle standing for a `*mongo.Collection`: records the database it was
derived from and the collection name. -/
structure MongoCollection where
  db : MongoDatabase
  name : String
deriving DecidableEq

/-- The `Credentials` object of driver.go: username and password. -/
structure Credentials where
  username : String
  password : String
deriving DecidableEq

/-- The `Client` object of driver.go: connection handle `cl` (nil until a
successful `Connect`), credentials `cr`, selected database `db`, selected
collection `co`, and the url suffix `u`. -/
structure Client where
  cl : Option MongoClient
  cr : Credentials
  db : Option MongoDatabase
  co : Option MongoCollection
  u : String
deriving DecidableEq

/-- One call into the external mongo driver, recorded in a trace. -/
inductive DCall where
  | ping (h : MongoClient)
  | connect (uri : String)
  | findOne (col : MongoCollection) (f : Filter)
  | find (col : MongoCollection) (f : Filter)
  | insertOne (col : MongoCollection) (d : Doc)
  | updateOne (col : MongoCollection) (f : Filter) (upd : MUpdate)
  | deleteOne (col : MongoCollection) (f : Filter)
  | deleteMany (col : MongoCollection) (f : Filter)
  | replaceOne (col : MongoCollection) (f : Filter) (d : Doc)
deriving DecidableEq

/-- Is this driver call a `mongo.Connect`? -/
def DCall.isConnect : DCall → Bool
  | .connect _ => true
  | _ => false

/-- Is this driver call a `Ping`? -/
def DCall.isPing : DCall → Bool
  | .ping _ => true
  | _ => false

/-- Is this driver call a collection-level `InsertOne`? -/
def DCall.isInsertOne : DCall → Bool
  | .insertOne _ _ => true
  | _ => false

/-- Is this driver call a collection-level `DeleteOne`? -/
def DCall.isDeleteOne : DCall → Bool
  | .deleteOne _ _ => true
  | _ => false

/-- Is this driver call a collection-level `DeleteMany`? -/
def DCall.isDeleteMany : DCall → Bool
  | .deleteMany _ _ => true
  | _ => false

/-- Is this driver call anything other than `Ping` or `Connect`
(i.e. an actual collection-level operation)? -/
def DCall.isCollectionOp : DCall → Bool
  | .ping _ => false
  | .connect _ => false
  | _ => true

/-- Oracle for the external driver: the outcome of every underlying call.
`connect` is a function of the URI and, matching `mongo.Connect`, returns
either a non-nil handle or an error (with a nil handle).  `ping` is a
function of the handle pinged.  The two fields per mutating operation give
the outcomes of the first attempt and of the single retry. -/
structure DriverEnv where
  connect : String → Except Err MongoClient
  ping : MongoClient → Option Err
  findOneRes : Filter → SingleResult
  findErr : Option Err
  findCursor : Cursor
  insert1 : Option Err
  insert2 : Option Err
  update1 : Option Err
  update2 : Option Err
  del1 : Option Err
  del2 : Option Err
  delMany1 : Option Err
  delMany2 : Option Err
  repl1 : Option Err
  repl2 : Option Err
  disconnectErr : Option Err

/-- Outcome of running a facade method: a value, or a nil-pointer
dereference (a Go panic inside the driver on a nil receiver). -/
inductive Exec (α : Type) where
  | ok (a : α)
  | nilDeref
deriving DecidableEq

/-- Embeds `NewClient` of driver.go: pure construction, no connection yet. -/
def NewClient (_username _password _url : String) : Client :=
  { cl := none
    cr := { username := _username, password := _password }
    db := none
    co := none
    u := _url }

/-- The connection string `Connect` builds:
`mongodb+srv://` + username + `:` + password + url suffix. -/
def connString (c : Client) : String :=
  "mongodb+srv://" ++ c.cr.username ++ ":" ++ c.cr.password ++ c.u

/-- Embeds `Connect` of driver.go: `c.cl, err = mongo.Connect(uri)`, then the error
is checked.  The driver's result is assigned to `c.cl` before the error
check; `mongo.Connect` returns a nil handle together with the error on
failure, so on failure `cl` is overwritten with nil. -/
def Client.Connect (env : DriverEnv) (c : Client) : Option Err × Client × List DCall :=
  let uri := connString c
  match env.connect uri with
  | Except.error e => (some e, { c with cl := none }, [DCall.connect uri])
  | Except.ok hcl => (none, { c with cl := some hcl }, [DCall.connect uri])

/-- Embeds `Ping` of driver.go: ping the current handle; on ping failure try one
`Connect`; return the connect error if that also fails, else the (nil)
reassigned error without re-pinging.  Pinging a nil handle dereferences it. -/
def Client.Ping (env : DriverEnv) (c : Client) : Exec (Option Err × Client × List DCall) :=
  match c.cl with
  | none => Exec.nilDeref
  | some h =>
    match env.ping h with
    | none => Exec.ok (none, c, [DCall.ping h])
    | some _ =>
      match c.Connect env with
      | (some e, c', tr) => Exec.ok (some e, c', DCall.ping h :: tr)
      | (none, c', tr) => Exec.ok (none, c', DCall.ping h :: tr)

/-- Embeds `SetDatabase` of driver.go: `c.db = c.cl.Database(db_name)`; no error
return and nothing else of the client is touched, but the driver's
`Database` reads fields of the client pointer, so calling it on a nil
handle is a nil dereference. -/
def Client.SetDatabase (c : Client) (db_name : String) : Exec Client :=
  match c.cl with
  | none => Exec.nilDeref
  | some h => Exec.ok { c with db := some { cl := h, name := db_name } }

/-- Embeds `SetCollection` of driver.go: error if no database has been set,
otherwise select the collection and report success. -/
def Client.SetCollection (c : Client) (cl_name : String) : (Bool × Option Err) × Client :=
  match c.db with
  | none => ((false, some "please set a database before setting a collection"), c)
  | some d => ((true, none), { c with co := some { db := d, name := cl_name } })

/-- Embeds `FindOne` of driver.go: ping (nil on ping error), then
`c.co.FindOne(filter)` — dereferencing `co` if it is unset. -/
def Client.FindOne (env : DriverEnv) (c : Client) (filter : Filter) :
    Exec (Option SingleResult × Client × List DCall) :=
  match c.Ping env with
  | Exec.nilDeref => Exec.nilDeref
  | Exec.ok (some _, c', tr) => Exec.ok (none, c', tr)
  | Exec.ok (none, c', tr) =>
    match c'.co with
    | none => Exec.nilDeref
    | some col => Exec.ok (some (env.findOneRes filter), c', tr ++ [DCall.findOne col filter])

/-- Embeds `FindMany` of driver.go: ping, then `c.co.Find`; nil on ping error and
on query error. -/
def Client.FindMany (env : DriverEnv) (c : Client) (filter : Filter) :
    Exec (Option Cursor × Client × List DCall) :=
  match c.Ping env with
  | Exec.nilDeref => Exec.nilDeref
  | Exec.ok (some _, c', tr) => Exec.ok (none, c', tr)
  | Exec.ok (none, c', tr) =>
    match c'.co with
    | none => Exec.nilDeref
    | some col =>
      match env.findErr with
      | some _ => Exec.ok (none, c', tr ++ [DCall.find col filter])
      | none => Exec.ok (some env.findCursor, c', tr ++ [DCall.find col filter])

/-- Return value of `InsertOne` (Go `any`): nil, the original document, or
an error value. -/
inductive InsertRet where
  | nil
  | obj (d : Doc)
  | err (e : Err)
deriving DecidableEq

/-- Embeds `InsertOne` of driver.go: ping (nil on ping error), insert, retry once
on failure; the original object on success of either attempt, the retry's
error on double failure. -/
def Client.InsertOne (env : DriverEnv) (c : Client) (object : Doc) :
    Exec (InsertRet × Client × List DCall) :=
  match c.Ping env with
  | Exec.nilDeref => Exec.nilDeref
  | Exec.ok (some _, c', tr) => Exec.ok (InsertRet.nil, c', tr)
  | Exec.ok (none, c', tr) =>
    match c'.co with
    | none => Exec.nilDeref
    | some col =>
      match env.insert1 with
      | none => Exec.ok (InsertRet.obj object, c', tr ++ [DCall.insertOne col object])
      | some _ =>
        match env.insert2 with
        | some e =>
          Exec.ok (InsertRet.err e, c', tr ++ [DCall.insertOne col object, DCall.insertOne col object])
        | none =>
          Exec.ok (InsertRet.obj object, c', tr ++ [DCall.insertOne col object, DCall.insertOne col object])

/-- Embeds `InsertMany` of driver.go: declared but unimplemented; pings, then
returns nil in every case, performing no insert call. -/
def Client.InsertMany (env : DriverEnv) (c : Client) (objects : List Doc) :
    Exec (Option Doc × Client × List DCall) :=
  match c.Ping env with
  | Exec.nilDeref => Exec.nilDeref
  | Exec.ok (some _, c', tr) => Exec.ok (none, c', tr)
  | Exec.ok (none, c', tr) => Exec.ok (none, c', tr)

/-- Embeds `UpdateOne` of driver.go: ping, update, retry once on failure; on
success of either attempt return `c.FindOne(filter)`; nil on double
failure or ping failure. -/
def Client.UpdateOne (env : DriverEnv) (c : Client) (filter : Filter) (upd : MUpdate) :
    Exec (Option SingleResult × Client × List DCall) :=
  match c.Ping env with
  | Exec.nilDeref => Exec.nilDeref
  | Exec.ok (some _, c', tr) => Exec.ok (none, c', tr)
  | Exec.ok (none, c', tr) =>
    match c'.co with
    | none => Exec.nilDeref
    | some col =>
      match env.update1 with
      | none =>
        match c'.FindOne env filter with
        | Exec.nilDeref => Exec.nilDeref
        | Exec.ok (r, c2, tr2) =>
          Exec.ok (r, c2, tr ++ [DCall.updateOne col filter upd] ++ tr2)
      | some _ =>
        match env.update2 with
        | some _ =>
          Exec.ok (none, c', tr ++ [DCall.updateOne col filter upd, DCall.updateOne col filter upd])
        | none =>
          match c'.FindOne env filter with
          | Exec.nilDeref => Exec.nilDeref
          | Exec.ok (r, c2, tr2) =>
            Exec.ok (r, c2, tr ++ [DCall.updateOne col filter upd, DCall.updateOne col filter upd] ++ tr2)

/-- Embeds `UpdateMany` of driver.go: declared but unimplemented; pings, then
returns nil in every case, performing no update call. -/
def Client.UpdateMany (env : DriverEnv) (c : Client) (filter : Filter) (upd : MUpdate) :
    Exec (Option Doc × Client × List DCall) :=
  match c.Ping env with
  | Exec.nilDeref => Exec.nilDeref
  | Exec.ok (some _, c', tr) => Exec.ok (none, c', tr)
  | Exec.ok (none, c', tr) => Exec.ok (none, c', tr)

/-- Embeds `RemoveOne` of driver.go: ping, delete, retry once; true iff a delete
attempt succeeded, false on ping failure or double failure. -/
def Client.RemoveOne (env : DriverEnv) (c : Client) (filter : Filter) :
    Exec (Bool × Client × List DCall) :=
  match c.Ping env with
  | Exec.nilDeref => Exec.nilDeref
  | Exec.ok (some _, c', tr) => Exec.ok (false, c', tr)
  | Exec.ok (none, c', tr) =>
    match c'.co with
    | none => Exec.nilDeref
    | some col =>
      match env.del1 with
      | none => Exec.ok (true, c', tr ++ [DCall.deleteOne col filter])
      | some _ =>
        match env.del2 with
        | some _ => Exec.ok (false, c', tr ++ [DCall.deleteOne col filter, DCall.deleteOne col filter])
        | none => Exec.ok (true, c', tr ++ [DCall.deleteOne col filter, DCall.deleteOne col filter])

/-- Embeds `RemoveMany` of driver.go: same shape as `RemoveOne` with `DeleteMany`. -/
def Client.RemoveMany (env : DriverEnv) (c : Client) (filter : Filter) :
    Exec (Bool × Client × List DCall) :=
  match c.Ping env with
  | Exec.nilDeref => Exec.nilDeref
  | Exec.ok (some _, c', tr) => Exec.ok (false, c', tr)
  | Exec.ok (none, c', tr) =>
    match c'.co with
    | none => Exec.nilDeref
    | some col =>
      match env.delMany1 with
      | none => Exec.ok (true, c', tr ++ [DCall.deleteMany col filter])
      | some _ =>
        match env.delMany2 with
        | some _ => Exec.ok (false, c', tr ++ [DCall.deleteMany col filter, DCall.deleteMany col filter])
        | none => Exec.ok (true, c', tr ++ [DCall.deleteMany col filter, DCall.deleteMany col filter])

/-- Embeds `ReplaceOne` of driver.go: ping, replace, retry once; on success of
either attempt return `c.FindOne(filter)`; nil otherwise. -/
def Client.ReplaceOne (env : DriverEnv) (c : Client) (filter : Filter) (replacement : Doc) :
    Exec (Option SingleResult × Client × List DCall) :=
  match c.Ping env with
  | Exec.nilDeref => Exec.nilDeref
  | Exec.ok (some _, c', tr) => Exec.ok (none, c', tr)
  | Exec.ok (none, c', tr) =>
    match c'.co with
    | none => Exec.nilDeref
    | some col =>
      match env.repl1 with
      | none =>
        match c'.FindOne env filter with
        | Exec.nilDeref => Exec.nilDeref
        | Exec.ok (r, c2, tr2) =>
          Exec.ok (r, c2, tr ++ [DCall.replaceOne col filter replacement] ++ tr2)
      | some _ =>
        match env.repl2 with
        | some _ =>
          Exec.ok (none, c', tr ++ [DCall.replaceOne col filter replacement, DCall.replaceOne col filter replacement])
        | none =>
          match c'.FindOne env filter with
          | Exec.nilDeref => Exec.nilDeref
          | Exec.ok (r, c2, tr2) =>
            Exec.ok (r, c2, tr ++ [DCall.replaceOne col filter replacement, DCall.replaceOne col filter replacement] ++ tr2)

/-- Embeds `Disconnect` of driver.go: `c.cl.Disconnect()`; false with the error on
failure, true otherwise; dereferences a nil handle. -/
def Client.Disconnect (env : DriverEnv) (c : Client) : Exec (Bool × Option Err) :=
  match c.cl with
  | none => Exec.nilDeref
  | some _ =>
    match env.disconnectErr with
    | some e => Exec.ok (false, some e)
    | none => Exec.ok (true, none)

/-- A client is live when its handle is set and either pinging that handle
succeeds or reconnecting with its connection string succeeds — exactly the
condition under which `Ping` returns a nil error. -/
def Live (env : DriverEnv) (c : Client) : Prop :=
  ∃ v, c.cl = some v ∧
    (env.ping v = none ∨ ∃ w, env.connect (connString c) = Except.ok w)

/-- Fully healthy driver environment, for concrete evaluations. -/
def envOk : DriverEnv :=
  { connect := fun _ => Except.ok 2
    ping := fun _ => none
    findOneRes := fun f => f + 100
    findErr := none
    findCursor := 0
    insert1 := none
    insert2 := none
    update1 := none
    update2 := none
    del1 := none
    del2 := none
    delMany1 := none
    delMany2 := none
    repl1 := none
    repl2 := none
    disconnectErr := none }

/-- Environment in which the ping and the reconnect both fail. -/
def envDown : DriverEnv :=
  { envOk with
    ping := fun _ => some "ping failed"
    connect := fun _ => Except.error "connect failed" }

/-- Environment in which every first mutating attempt fails transiently and
every retry succeeds. -/
def envRetry : DriverEnv :=
  { envOk with
    insert1 := some "transient"
    update1 := some "transient"
    del1 := some "transient"
    delMany1 := some "transient"
    repl1 := some "transient" }

/-- Environment in which both attempts of every mutating call fail. -/
def envOpFail : DriverEnv :=
  { envOk with
    insert1 := some "fail1"
    insert2 := some "fail2"
    update1 := some "fail1"
    update2 := some "fail2"
    del1 := some "fail1"
    del2 := some "fail2"
    delMany1 := some "fail1"
    delMany2 := some "fail2"
    repl1 := some "fail1"
    repl2 := some "fail2" }

/-- Concrete database handle for evaluations. -/
def dbW : MongoDatabase := { cl := 1, name := "db" }

/-- Concrete collection handle for evaluations. -/
def colW : MongoCollection := { db := dbW, name := "items" }

/-- Concrete connected client with database and collection selected. -/
def clientW : Client :=
  { cl := some 1
    cr := { username := "u", password := "p" }
    db := some dbW
    co := some colW
    u := "@cluster0.example.net/test" }

/-- Concrete connected client with no collection selected. -/
def clientNoCo : Client := { clientW with co := none }

/-! ## Helper lemmas -/

/-- The connection string ignores the connection handle. -/
theorem connString_set_cl (c : Client) (x : Option MongoClient) :
    connString { c with cl := x } = connString c := rfl

/-- Outcome of `Ping` when pinging the current handle succeeds. -/
theorem ping_ok_eq (env : DriverEnv) (c : Client) (h : MongoClient)
    (hcl : c.cl = some h) (hp : env.ping h = none) :
    c.Ping env = Exec.ok (none, c, [DCall.ping h]) := by
  simp [Client.Ping, hcl, hp]

/-- Outcome of `Ping` when the ping fails but the reconnect succeeds. -/
theorem ping_reconnect_eq (env : DriverEnv) (c : Client) (h : MongoClient)
    (pe : Err) (w : MongoClient) (hcl : c.cl = some h) (hp : env.ping h = some pe)
    (hcn : env.connect (connString c) = Except.ok w) :
    c.Ping env = Exec.ok (none, { c with cl := some w },
      [DCall.ping h, DCall.connect (connString c)]) := by
  simp [Client.Ping, Client.Connect, hcl, hp, hcn]

/-- Outcome of `Ping` when the ping and the reconnect both fail. -/
theorem ping_fail_eq (env : DriverEnv) (c : Client) (h : MongoClient)
    (pe er : Err) (hcl : c.cl = some h) (hp : env.ping h = some pe)
    (hcn : env.connect (connString c) = Except.error er) :
    c.Ping env = Exec.ok (some er, { c with cl := none },
      [DCall.ping h, DCall.connect (connString c)]) := by
  simp [Client.Ping, Client.Connect, hcl, hp, hcn]

/-- If `Ping` returns a nil error then the resulting client is live and
only its connection handle may have changed. -/
theorem ping_none_inv (env : DriverEnv) (c c1 : Client) (tr : List DCall)
    (h : c.Ping env = Exec.ok (none, c1, tr)) :
    Live env c1 ∧ c1.co = c.co ∧ c1.cr = c.cr ∧ c1.u = c.u ∧ c1.db = c.db := by
  rcases hcl : c.cl with _ | v
  · simp [Client.Ping, hcl] at h
  · rcases hp : env.ping v with _ | pe
    · rw [ping_ok_eq env c v hcl hp] at h
      simp only [Exec.ok.injEq, Prod.mk.injEq] at h
      obtain ⟨-, h2, -⟩ := h
      subst h2
      exact ⟨⟨v, hcl, Or.inl hp⟩, rfl, rfl, rfl, rfl⟩
    · rcases hcn : env.connect (connString c) with er | w
      · rw [ping_fail_eq env c v pe er hcl hp hcn] at h
        simp at h
      · rw [ping_reconnect_eq env c v pe w hcl hp hcn] at h
        simp only [Exec.ok.injEq, Prod.mk.injEq] at h
        obtain ⟨-, h2, -⟩ := h
        subst h2
        refine ⟨⟨w, rfl, Or.inr ⟨w, ?_⟩⟩, rfl, rfl, rfl, rfl⟩
        rw [connString_set_cl]
        exact hcn

/-- A live client's `Ping` returns a nil error and preserves liveness and
every field other than the connection handle. -/
theorem ping_live (env : DriverEnv) (c : Client) (hL : Live env c) :
    ∃ c1 tr, c.Ping env = Exec.ok (none, c1, tr) ∧ Live env c1 ∧
      c1.co = c.co ∧ c1.cr = c.cr ∧ c1.u = c.u := by
  obtain ⟨v, hcl, hor⟩ := hL
  rcases hp : env.ping v with _ | pe
  · exact ⟨c, [DCall.ping v], ping_ok_eq env c v hcl hp,
      ⟨v, hcl, Or.inl hp⟩, rfl, rfl, rfl⟩
  · rcases hor with hnone | ⟨w, hw⟩
    · rw [hp] at hnone; exact absurd hnone (by simp)
    · refine ⟨{ c with cl := some w }, [DCall.ping v, DCall.connect (connString c)],
        ping_reconnect_eq env c v pe w hcl hp hw, ⟨w, rfl, Or.inr ⟨w, ?_⟩⟩, rfl, rfl, rfl⟩
      rw [connString_set_cl]
      exact hw

/-- A live client with a selected collection gets a result from `FindOne`,
and the resulting client is again live with the same collection. -/
theorem findOne_live (env : DriverEnv) (c : Client) (filter : Filter)
    (col : MongoCollection) (hL : Live env c) (hco : c.co = some col) :
    ∃ c1 tr, c.FindOne env filter =
        Exec.ok (some (env.findOneRes filter), c1, tr) ∧
      Live env c1 ∧ c1.co = c.co := by
  obtain ⟨c1, tr1, hP, hL1, hco1, -, -⟩ := ping_live env c hL
  refine ⟨c1, tr1 ++ [DCall.findOne col filter], ?_, hL1, hco1⟩
  rw [Client.FindOne, hP]
  rw [hco] at hco1
  simp [hco1]

/-- Inversion for a successful `FindOne`: the value returned is the
oracle's, and the resulting client is live with the collection still set. -/
theorem findOne_ok_inv (env : DriverEnv) (c c' : Client) (filter : Filter)
    (r : SingleResult) (tr : List DCall)
    (h : c.FindOne env filter = Exec.ok (some r, c', tr)) :
    r = env.findOneRes filter ∧ Live env c' ∧ ∃ col, c'.co = some col := by
  rw [Client.FindOne] at h
  rcases hP : c.Ping env with ⟨e1, c1, tr1⟩ | _
  · rw [hP] at h
    rcases e1 with _ | pe
    · rcases hco : c1.co with _ | col
      · simp [hco] at h
      · simp only [hco, Exec.ok.injEq, Prod.mk.injEq, Option.some.injEq] at h
        obtain ⟨h1, h2, -⟩ := h
        obtain ⟨hL1, -, -, -, -⟩ := ping_none_inv env c c1 tr1 hP
        subst h2
        exact ⟨h1.symm, hL1, col, hco⟩
    · simp at h
  · rw [hP] at h
    simp at h

/-! ## Claim theorems -/

/-- Counterexample to C9 as stated: `SetDatabase` does not *never* fail.
On a never-connected client (nil connection handle), `c.cl.Database`
dereferences the nil `*mongo.Client` — a panic, not a success — so there
is no resulting client at all. -/
theorem setDatabase_nil_handle_counterexample :
    (NewClient "u" "p" "@x").SetDatabase "mydb" = Exec.nilDeref ∧
    ∀ c', (NewClient "u" "p" "@x").SetDatabase "mydb" ≠ Exec.ok c' := by
  exact ⟨rfl, fun c' hc => by simp [Client.SetDatabase, NewClient] at hc⟩

/-- C9 (amended): on a connected client, `SetDatabase` never fails and
changes only the database reference: the connection handle, credentials,
url suffix and in particular the previously selected collection are left
unchanged, so the collection can still refer to a collection of the
previously selected database until `SetCollection` is called again; the
new database handle is derived from the current connection handle and the
given name.  (On a never-connected client the call instead dereferences
the nil handle.) -/
theorem setDatabase_frame (c : Client) (name : String) (h : MongoClient)
    (hcl : c.cl = some h) :
    ∃ c', c.SetDatabase name = Exec.ok c' ∧
      c'.co = c.co ∧ c'.cl = c.cl ∧ c'.cr = c.cr ∧ c'.u = c.u ∧
      c'.db = some { cl := h, name := name } := by
  refine ⟨{ c with db := some { cl := h, name := name } }, ?_, rfl, rfl, rfl, rfl, rfl⟩
  simp [Client.SetDatabase, hcl]

/-- Witness for C9 (amended) on the concrete connected client. -/
theorem setDatabase_frame_witness :
    clientW.cl = some 1 ∧
    ∃ c', clientW.SetDatabase "other" = Exec.ok c' ∧
      c'.co = clientW.co ∧ c'.cl = clientW.cl ∧ c'.cr = clientW.cr ∧
      c'.u = clientW.u ∧ c'.db = some { cl := 1, name := "other" } :=
  ⟨rfl, setDatabase_frame clientW "other" 1 rfl⟩

/-- C2: `SetCollection` with no database set fails with the fixed error
message and leaves the client (in particular its collection reference)
unchanged; with a database set it succeeds with a nil error and selects
the collection. -/
theorem setCollection_requires_database (c : Client) (name : String) :
    (c.db = none →
      c.SetCollection name =
        ((false, some "please set a database before setting a collection"), c)) ∧
    (∀ d, c.db = some d →
      c.SetCollection name =
        ((true, none), { c with co := some { db := d, name := name } })) := by
  constructor
  · intro h
    simp [Client.SetCollection, h]
  · intro d h
    simp [Client.SetCollection, h]

/-- Witness for C2 at a freshly constructed client and the collection name
of the spec scenario. -/
theorem setCollection_requires_database_witness :
    (NewClient "u" "p" "@x").db = none ∧
    (NewClient "u" "p" "@x").SetCollection "items" =
      ((false, some "please set a database before setting a collection"),
        NewClient "u" "p" "@x") :=
  ⟨rfl, (setCollection_requires_database (NewClient "u" "p" "@x") "items").1 rfl⟩

/-- C6: `Connect` builds and uses exactly the connection string
`mongodb+srv://` + username + `:` + password + url suffix — its single
driver call is a connect with that URI — and the spec's concrete scenario
produces the literal string. -/
theorem connect_builds_srv_connection_string (env : DriverEnv) (u p s : String) :
    connString (NewClient u p s) = "mongodb+srv://" ++ u ++ ":" ++ p ++ s ∧
    ((NewClient u p s).Connect env).2.2 =
      [DCall.connect ("mongodb+srv://" ++ u ++ ":" ++ p ++ s)] ∧
    connString (NewClient "u" "p" "@cluster0.example.net/test") =
      "mongodb+srv://u:p@cluster0.example.net/test" := by
  refine ⟨rfl, ?_, rfl⟩
  rw [Client.Connect]
  rcases env.connect (connString (NewClient u p s)) with er | w <;> rfl

/-- C1: on a connected client, `Ping` pings exactly once; when the ping
succeeds it makes no `Connect` call and returns a nil error with the
client unchanged; when the ping fails it makes exactly one `Connect` call;
and it returns a non-nil error if and only if the ping fails and that
single reconnect attempt also fails. -/
theorem ping_reconnect_policy (env : DriverEnv) (c : Client) (h : MongoClient)
    (hcl : c.cl = some h) :
    ∃ e c' tr, c.Ping env = Exec.ok (e, c', tr) ∧
      (tr.filter DCall.isPing).length = 1 ∧
      (env.ping h = none →
        e = none ∧ c' = c ∧ (tr.filter DCall.isConnect).length = 0) ∧
      (env.ping h ≠ none → (tr.filter DCall.isConnect).length = 1) ∧
      (e ≠ none ↔ env.ping h ≠ none ∧
        ∃ er, env.connect (connString c) = Except.error er) := by
  rcases hp : env.ping h with _ | pe
  · exact ⟨none, c, [DCall.ping h], ping_ok_eq env c h hcl hp,
      rfl, fun _ => ⟨rfl, rfl, rfl⟩, fun hk => absurd rfl hk,
      by simp [hp]⟩
  · rcases hcn : env.connect (connString c) with er | w
    · refine ⟨some er, { c with cl := none },
        [DCall.ping h, DCall.connect (connString c)],
        ping_fail_eq env c h pe er hcl hp hcn, rfl,
        fun hk => absurd hk (by simp),
        fun _ => rfl, ?_⟩
      simp [hp, hcn]
    · refine ⟨none, { c with cl := some w },
        [DCall.ping h, DCall.connect (connString c)],
        ping_reconnect_eq env c h pe w hcl hp hcn, rfl,
        fun hk => absurd hk (by simp),
        fun _ => rfl, ?_⟩
      simp [hp, hcn]

/-- Witness for C1 on the concrete connected client in the environment
where the ping and the reconnect both fail. -/
theorem ping_reconnect_policy_witness :
    clientW.cl = some 1 ∧
    ∃ e c' tr, clientW.Ping envDown = Exec.ok (e, c', tr) ∧
      (tr.filter DCall.isPing).length = 1 ∧
      (envDown.ping 1 = none →
        e = none ∧ c' = clientW ∧ (tr.filter DCall.isConnect).length = 0) ∧
      (envDown.ping 1 ≠ none → (tr.filter DCall.isConnect).length = 1) ∧
      (e ≠ none ↔ envDown.ping 1 ≠ none ∧
        ∃ er, envDown.connect (connString clientW) = Except.error er) :=
  ⟨rfl, ping_reconnect_policy envDown clientW 1 rfl⟩

/-- C10: `Connect` assigns the driver's result to the connection handle
before checking the error, and on failure `mongo.Connect` returns a nil
handle, so a failing `Connect` overwrites the previously held handle with
nil; consequently a `Ping` whose reconnect attempt fails also leaves the
handle replaced (nil) rather than restoring the prior one. -/
theorem connect_overwrites_handle_on_error (env : DriverEnv) (c : Client)
    (h : MongoClient) (er pe : Err) (hcl : c.cl = some h)
    (hcn : env.connect (connString c) = Except.error er) :
    ((c.Connect env).1 = some er ∧
      (c.Connect env).2.1.cl = none ∧ (c.Connect env).2.1.cl ≠ c.cl) ∧
    (env.ping h = some pe →
      c.Ping env = Exec.ok (some er, { c with cl := none },
        [DCall.ping h, DCall.connect (connString c)]) ∧
      ({ c with cl := none } : Client).cl ≠ c.cl) := by
  constructor
  · rw [Client.Connect, hcn]
    exact ⟨rfl, rfl, by simp [hcl]⟩
  · intro hp
    exact ⟨ping_fail_eq env c h pe er hcl hp hcn, by simp [hcl]⟩

/-- Witness for C10 on the concrete connected client in the environment
where the ping and the reconnect both fail. -/
theorem connect_overwrites_handle_on_error_witness :
    clientW.cl = some 1 ∧
    envDown.connect (connString clientW) = Except.error "connect failed" ∧
    envDown.ping 1 = some "ping failed" ∧
    ((clientW.Connect envDown).1 = some "connect failed" ∧
      (clientW.Connect envDown).2.1.cl = none ∧
      (clientW.Connect envDown).2.1.cl ≠ clientW.cl) ∧
    (clientW.Ping envDown = Exec.ok (some "connect failed",
        { clientW with cl := none },
        [DCall.ping 1, DCall.connect (connString clientW)]) ∧
      ({ clientW with cl := none } : Client).cl ≠ clientW.cl) := by
  have h := connect_overwrites_handle_on_error envDown clientW 1
    "connect failed" "ping failed" rfl rfl
  exact ⟨rfl, rfl, rfl, h.1, h.2 rfl⟩

/-- C7: on a connected client, `InsertMany` and `UpdateMany` always return
nil — both when the ping (with its reconnect) fails and after a successful
ping — and perform no collection-level driver call at all. -/
theorem insertMany_updateMany_return_nil (env : DriverEnv) (c : Client)
    (objects : List Doc) (filter : Filter) (upd : MUpdate)
    (h : MongoClient) (hcl : c.cl = some h) :
    (∃ c' tr, c.InsertMany env objects = Exec.ok (none, c', tr) ∧
      (tr.filter DCall.isCollectionOp).length = 0) ∧
    (∃ c' tr, c.UpdateMany env filter upd = Exec.ok (none, c', tr) ∧
      (tr.filter DCall.isCollectionOp).length = 0) := by
  rcases hp : env.ping h with _ | pe
  · rw [Client.InsertMany, Client.UpdateMany, ping_ok_eq env c h hcl hp]
    exact ⟨⟨c, [DCall.ping h], rfl, rfl⟩, ⟨c, [DCall.ping h], rfl, rfl⟩⟩
  · rcases hcn : env.connect (connString c) with er | w
    · rw [Client.InsertMany, Client.UpdateMany, ping_fail_eq env c h pe er hcl hp hcn]
      exact ⟨⟨_, _, rfl, rfl⟩, ⟨_, _, rfl, rfl⟩⟩
    · rw [Client.InsertMany, Client.UpdateMany, ping_reconnect_eq env c h pe w hcl hp hcn]
      exact ⟨⟨_, _, rfl, rfl⟩, ⟨_, _, rfl, rfl⟩⟩

/-- Witness for C7 on the concrete connected client in the healthy
environment. -/
theorem insertMany_updateMany_return_nil_witness :
    clientW.cl = some 1 ∧
    (∃ c' tr, clientW.InsertMany envOk [4, 5] = Exec.ok (none, c', tr) ∧
      (tr.filter DCall.isCollectionOp).length = 0) ∧
    (∃ c' tr, clientW.UpdateMany envOk 3 7 = Exec.ok (none, c', tr) ∧
      (tr.filter DCall.isCollectionOp).length = 0) :=
  ⟨rfl, insertMany_updateMany_return_nil envOk clientW [4, 5] 3 7 1 rfl⟩

/-- C8: on a connected client whose collection reference is unset, every
CRUD method — FindOne, FindMany, InsertOne, UpdateOne, RemoveOne,
RemoveMany, ReplaceOne — reaches a dereference of the nil collection
reference whenever the ping (directly or through its reconnect) succeeds;
there is no designed error path. -/
theorem crud_nil_collection_deref (env : DriverEnv) (c : Client)
    (filter : Filter) (object replacement : Doc) (upd : MUpdate)
    (h : MongoClient) (hcl : c.cl = some h) (hco : c.co = none)
    (hping : env.ping h = none ∨ ∃ w, env.connect (connString c) = Except.ok w) :
    c.FindOne env filter = Exec.nilDeref ∧
    c.FindMany env filter = Exec.nilDeref ∧
    c.InsertOne env object = Exec.nilDeref ∧
    c.UpdateOne env filter upd = Exec.nilDeref ∧
    c.RemoveOne env filter = Exec.nilDeref ∧
    c.RemoveMany env filter = Exec.nilDeref ∧
    c.ReplaceOne env filter replacement = Exec.nilDeref := by
  obtain ⟨c1, tr1, hP, -, hco1, -, -⟩ := ping_live env c ⟨h, hcl, hping⟩
  rw [hco] at hco1
  rw [Client.FindOne, Client.FindMany, Client.InsertOne, Client.UpdateOne,
    Client.RemoveOne, Client.RemoveMany, Client.ReplaceOne, hP]
  simp [hco1]

/-- Witness for C8 on the concrete connected client with no collection
selected, in the healthy environment. -/
theorem crud_nil_collection_deref_witness :
    clientNoCo.cl = some 1 ∧ clientNoCo.co = none ∧
    envOk.ping 1 = none ∧
    clientNoCo.FindOne envOk 3 = Exec.nilDeref ∧
    clientNoCo.FindMany envOk 3 = Exec.nilDeref ∧
    clientNoCo.InsertOne envOk 4 = Exec.nilDeref ∧
    clientNoCo.UpdateOne envOk 3 7 = Exec.nilDeref ∧
    clientNoCo.RemoveOne envOk 3 = Exec.nilDeref ∧
    clientNoCo.RemoveMany envOk 3 = Exec.nilDeref ∧
    clientNoCo.ReplaceOne envOk 3 5 = Exec.nilDeref :=
  ⟨rfl, rfl, rfl,
    crud_nil_collection_deref envOk clientNoCo 3 4 5 7 1 rfl rfl (Or.inl rfl)⟩

/-- C3: on a connected client with a collection selected, `InsertOne`
pings first and returns nil (making no insert attempt) when the ping and
its reconnect fail; otherwise it attempts the insert, retrying exactly
once on failure: it returns the originally supplied document unchanged
when the first or the retried insert succeeds, and the retry's error value
when both attempts fail. -/
theorem insertOne_retry_semantics (env : DriverEnv) (c : Client) (object : Doc)
    (h : MongoClient) (col : MongoCollection)
    (hcl : c.cl = some h) (hco : c.co = some col) :
    (env.ping h ≠ none → (∀ w, env.connect (connString c) ≠ Except.ok w) →
      ∃ c' tr, c.InsertOne env object = Exec.ok (InsertRet.nil, c', tr) ∧
        (tr.filter DCall.isInsertOne).length = 0) ∧
    ((env.ping h = none ∨ ∃ w, env.connect (connString c) = Except.ok w) →
      (env.insert1 = none →
        ∃ c' tr, c.InsertOne env object = Exec.ok (InsertRet.obj object, c', tr) ∧
          (tr.filter DCall.isInsertOne).length = 1) ∧
      (env.insert1 ≠ none → env.insert2 = none →
        ∃ c' tr, c.InsertOne env object = Exec.ok (InsertRet.obj object, c', tr) ∧
          (tr.filter DCall.isInsertOne).length = 2) ∧
      (∀ e1 e2, env.insert1 = some e1 → env.insert2 = some e2 →
        ∃ c' tr, c.InsertOne env object = Exec.ok (InsertRet.err e2, c', tr) ∧
          (tr.filter DCall.isInsertOne).length = 2)) := by
  constructor
  · intro hp hcn
    rcases hpe : env.ping h with _ | pe
    · exact absurd hpe hp
    · rcases hce : env.connect (connString c) with er | w
      · rw [Client.InsertOne, ping_fail_eq env c h pe er hcl hpe hce]
        exact ⟨_, _, rfl, rfl⟩
      · exact absurd hce (hcn w)
  · intro hlive
    obtain ⟨c1, tr1, hP, -, hco1, -, -⟩ := ping_live env c ⟨h, hcl, hlive⟩
    rw [hco] at hco1
    have filterPC : (tr1.filter DCall.isInsertOne).length = 0 := by
      rcases hpe : env.ping h with _ | pe
      · rw [ping_ok_eq env c h hcl hpe] at hP
        simp only [Exec.ok.injEq, Prod.mk.injEq] at hP
        rw [← hP.2.2]
        rfl
      · rcases hce : env.connect (connString c) with er | w
        · rw [ping_fail_eq env c h pe er hcl hpe hce] at hP
          simp at hP
        · rw [ping_reconnect_eq env c h pe w hcl hpe hce] at hP
          simp only [Exec.ok.injEq, Prod.mk.injEq] at hP
          rw [← hP.2.2]
          rfl
    refine ⟨?_, ?_, ?_⟩
    · intro h1
      rw [Client.InsertOne, hP]
      refine ⟨c1, tr1 ++ [DCall.insertOne col object], by simp [hco1, h1], ?_⟩
      simp [List.filter_append, filterPC, DCall.isInsertOne]
    · intro h1 h2
      rcases he1 : env.insert1 with _ | e1
      · exact absurd he1 h1
      rw [Client.InsertOne, hP]
      refine ⟨c1, tr1 ++ [DCall.insertOne col object, DCall.insertOne col object],
        by simp [hco1, he1, h2], ?_⟩
      simp [List.filter_append, filterPC, DCall.isInsertOne]
    · intro e1 e2 h1 h2
      rw [Client.InsertOne, hP]
      refine ⟨c1, tr1 ++ [DCall.insertOne col object, DCall.insertOne col object],
        by simp [hco1, h1, h2], ?_⟩
      simp [List.filter_append, filterPC, DCall.isInsertOne]

/-- Witness for C3 on the concrete connected client in the environment
where the first insert fails and the retry succeeds: the original document
is returned unchanged after two insert attempts. -/
theorem insertOne_retry_semantics_witness :
    clientW.cl = some 1 ∧ clientW.co = some colW ∧
    envRetry.ping 1 = none ∧ envRetry.insert1 ≠ none ∧ envRetry.insert2 = none ∧
    ∃ c' tr, clientW.InsertOne envRetry 42 = Exec.ok (InsertRet.obj 42, c', tr) ∧
      (tr.filter DCall.isInsertOne).length = 2 :=
  ⟨rfl, rfl, rfl, by simp [envRetry, envOk], rfl,
    ((insertOne_retry_semantics envRetry clientW 42 1 colW rfl rfl).2
      (Or.inl rfl)).2.1 (by simp [envRetry, envOk]) rfl⟩

/-- C4: on a connected client with a collection selected, `RemoveOne` and
`RemoveMany` return true if and only if the ping path succeeds and the
underlying delete (first or single retried attempt) completes without
error; both ping failure and double delete failure yield the same false,
so the two failure causes are indistinguishable to the caller. -/
theorem remove_true_iff_delete_ok (env : DriverEnv) (c : Client) (filter : Filter)
    (h : MongoClient) (col : MongoCollection)
    (hcl : c.cl = some h) (hco : c.co = some col) :
    (∃ b c' tr, c.RemoveOne env filter = Exec.ok (b, c', tr) ∧
      (b = true ↔
        (env.ping h = none ∨ ∃ w, env.connect (connString c) = Except.ok w) ∧
        (env.del1 = none ∨ env.del2 = none))) ∧
    (∃ b c' tr, c.RemoveMany env filter = Exec.ok (b, c', tr) ∧
      (b = true ↔
        (env.ping h = none ∨ ∃ w, env.connect (connString c) = Except.ok w) ∧
        (env.delMany1 = none ∨ env.delMany2 = none))) := by
  by_cases hlive : env.ping h = none ∨ ∃ w, env.connect (connString c) = Except.ok w
  · obtain ⟨c1, tr1, hP, -, hco1, -, -⟩ := ping_live env c ⟨h, hcl, hlive⟩
    rw [hco] at hco1
    rw [Client.RemoveOne, Client.RemoveMany, hP]
    constructor
    · rcases h1 : env.del1 with _ | e1
      · exact ⟨true, c1, tr1 ++ [DCall.deleteOne col filter],
          by simp [hco1, h1], by simp [hlive, h1]⟩
      · rcases h2 : env.del2 with _ | e2
        · exact ⟨true, c1, tr1 ++ [DCall.deleteOne col filter, DCall.deleteOne col filter],
            by simp [hco1, h1, h2], by simp [hlive, h2]⟩
        · exact ⟨false, c1, tr1 ++ [DCall.deleteOne col filter, DCall.deleteOne col filter],
            by simp [hco1, h1, h2], by simp [h1, h2]⟩
    · rcases h1 : env.delMany1 with _ | e1
      · exact ⟨true, c1, tr1 ++ [DCall.deleteMany col filter],
          by simp [hco1, h1], by simp [hlive, h1]⟩
      · rcases h2 : env.delMany2 with _ | e2
        · exact ⟨true, c1, tr1 ++ [DCall.deleteMany col filter, DCall.deleteMany col filter],
            by simp [hco1, h1, h2], by simp [hlive, h2]⟩
        · exact ⟨false, c1, tr1 ++ [DCall.deleteMany col filter, DCall.deleteMany col filter],
            by simp [hco1, h1, h2], by simp [h1, h2]⟩
  · push_neg at hlive
    obtain ⟨hp, hcn⟩ := hlive
    rcases hpe : env.ping h with _ | pe
    · exact absurd hpe hp
    rcases hce : env.connect (connString c) with er | w
    · rw [Client.RemoveOne, Client.RemoveMany, ping_fail_eq env c h pe er hcl hpe hce]
      refine ⟨⟨false, _, _, rfl, ?_⟩, ⟨false, _, _, rfl, ?_⟩⟩ <;>
        simp [hpe, hce]
    · exact absurd hce (by simpa using hcn w)

/-- Witness for C4 on the concrete connected client in the environment
where both delete attempts fail: false is returned, indistinguishable from
the ping-failure false. -/
theorem remove_true_iff_delete_ok_witness :
    clientW.cl = some 1 ∧ clientW.co = some colW ∧
    (∃ b c' tr, clientW.RemoveOne envOpFail 3 = Exec.ok (b, c', tr) ∧
      (b = true ↔
        (envOpFail.ping 1 = none ∨
          ∃ w, envOpFail.connect (connString clientW) = Except.ok w) ∧
        (envOpFail.del1 = none ∨ envOpFail.del2 = none))) ∧
    (∃ b c' tr, clientW.RemoveMany envOpFail 3 = Exec.ok (b, c', tr) ∧
      (b = true ↔
        (envOpFail.ping 1 = none ∨
          ∃ w, envOpFail.connect (connString clientW) = Except.ok w) ∧
        (envOpFail.delMany1 = none ∨ envOpFail.delMany2 = none))) :=
  ⟨rfl, rfl, remove_true_iff_delete_ok envOpFail clientW 3 1 colW rfl rfl⟩

/-- C5: whenever `UpdateOne` (respectively `ReplaceOne`) performs a
successful mutation and hence returns a query result, that value is
exactly the value `FindOne` with the same filter returns when called
immediately afterward on the resulting client. -/
theorem update_replace_agree_with_findOne (env : DriverEnv) (c : Client)
    (filter : Filter) (upd : MUpdate) (replacement : Doc) :
    (∀ r c' tr, c.UpdateOne env filter upd = Exec.ok (some r, c', tr) →
      ∃ c2 tr2, c'.FindOne env filter = Exec.ok (some r, c2, tr2)) ∧
    (∀ r c' tr, c.ReplaceOne env filter replacement = Exec.ok (some r, c', tr) →
      ∃ c2 tr2, c'.FindOne env filter = Exec.ok (some r, c2, tr2)) := by
  constructor
  · intro r c' tr h
    rw [Client.UpdateOne] at h
    rcases hP : c.Ping env with ⟨e1, c1, tr1⟩ | _
    · rw [hP] at h
      rcases e1 with _ | pe
      · rcases hco : c1.co with _ | col
        · simp [hco] at h
        · rcases hu1 : env.update1 with _ | e1
          · simp only [hco, hu1] at h
            rcases hF : c1.FindOne env filter with ⟨rr, cf, trf⟩ | _
            · rw [hF] at h
              simp only [Exec.ok.injEq, Prod.mk.injEq] at h
              obtain ⟨h1, h2, -⟩ := h
              subst h1
              subst h2
              obtain ⟨hr, hL, col2, hco2⟩ := findOne_ok_inv env c1 cf filter r trf hF
              obtain ⟨c3, tr3, hF2, -, -⟩ := findOne_live env cf filter col2 hL hco2
              exact ⟨c3, tr3, by rw [hF2, hr]⟩
            · rw [hF] at h
              simp at h
          · rcases hu2 : env.update2 with _ | e2
            · simp only [hco, hu1, hu2] at h
              rcases hF : c1.FindOne env filter with ⟨rr, cf, trf⟩ | _
              · rw [hF] at h
                simp only [Exec.ok.injEq, Prod.mk.injEq] at h
                obtain ⟨h1, h2, -⟩ := h
                subst h1
                subst h2
                obtain ⟨hr, hL, col2, hco2⟩ := findOne_ok_inv env c1 cf filter r trf hF
                obtain ⟨c3, tr3, hF2, -, -⟩ := findOne_live env cf filter col2 hL hco2
                exact ⟨c3, tr3, by rw [hF2, hr]⟩
              · rw [hF] at h
                simp at h
            · simp [hco, hu1, hu2] at h
      · simp at h
    · rw [hP] at h
      simp at h
  · intro r c' tr h
    rw [Client.ReplaceOne] at h
    rcases hP : c.Ping env with ⟨e1, c1, tr1⟩ | _
    · rw [hP] at h
      rcases e1 with _ | pe
      · rcases hco : c1.co with _ | col
        · simp [hco] at h
        · rcases hu1 : env.repl1 with _ | e1
          · simp only [hco, hu1] at h
            rcases hF : c1.FindOne env filter with ⟨rr, cf, trf⟩ | _
            · rw [hF] at h
              simp only [Exec.ok.injEq, Prod.mk.injEq] at h
              obtain ⟨h1, h2, -⟩ := h
              subst h1
              subst h2
              obtain ⟨hr, hL, col2, hco2⟩ := findOne_ok_inv env c1 cf filter r trf hF
              obtain ⟨c3, tr3, hF2, -, -⟩ := findOne_live env cf filter col2 hL hco2
              exact ⟨c3, tr3, by rw [hF2, hr]⟩
            · rw [hF] at h
              simp at h
          · rcases hu2 : env.repl2 with _ | e2
            · simp only [hco, hu1, hu2] at h
              rcases hF : c1.FindOne env filter with ⟨rr, cf, trf⟩ | _
              · rw [hF] at h
                simp only [Exec.ok.injEq, Prod.mk.injEq] at h
                obtain ⟨h1, h2, -⟩ := h
                subst h1
                subst h2
                obtain ⟨hr, hL, col2, hco2⟩ := findOne_ok_inv env c1 cf filter r trf hF
                obtain ⟨c3, tr3, hF2, -, -⟩ := findOne_live env cf filter col2 hL hco2
                exact ⟨c3, tr3, by rw [hF2, hr]⟩
              · rw [hF] at h
                simp at h
            · simp [hco, hu1, hu2] at h
      · simp at h
    · rw [hP] at h
      simp at h

/-- Witness for C5 on the concrete connected client in the healthy
environment: `UpdateOne` returns the oracle's query result for the filter,
and `FindOne` immediately afterward returns the same value. -/
theorem update_replace_agree_with_findOne_witness :
    clientW.UpdateOne envOk 3 7 = Exec.ok (some 103, clientW,
      [DCall.ping 1, DCall.updateOne colW 3 7, DCall.ping 1, DCall.findOne colW 3]) ∧
    ∃ c2 tr2, clientW.FindOne envOk 3 = Exec.ok (some 103, c2, tr2) :=
  ⟨by decide, (update_replace_agree_with_findOne envOk clientW 3 7 5).1 103 clientW
    [DCall.ping 1, DCall.updateOne colW 3 7, DCall.ping 1, DCall.findOne colW 3]
    (by decide)⟩

end GoMongo
